import Mathlib

/-!
Verification of the Backup Lifecycle & Live Metrics Distribution subsystem
of the MongoDB management dashboard.

The Go sources are embedded shallowly:

* `sqlite.Backup` and the `BackupRepository` operations (`backup_repo.go`)
  become pure functions over a `List Backup` store.  Timestamps are `Int`
  (arbitrary units; days in the retention theorems), `sql.NullTime` /
  `sql.NullString` become `Option`.
* The backup service (`service.go`) is embedded with the outcomes of its
  external calls (SQLite driver write results, the `mongodump` executor)
  passed as explicit parameters, mirroring each `if err != nil` branch.
* The cron scheduler registry (`scheduler.go`) is a registry state plus
  the external cron library's entry list; cron-expression parsability is
  an explicit function parameter.
* The websocket hub (`hub.go`) is a list of viewers with bounded queues,
  and one broadcast dispatch is a pure step on that state.
-/

namespace OneIsNun

/-- Embeds the `Backup` row struct of `backup_repo.go`:
`ID, DatabaseName, FilePath, SizeBytes, StartedAt, CompletedAt (NullTime),
Status, ErrorMessage (NullString), TriggeredBy`. -/
structure Backup where
  id : String
  databaseName : String
  filePath : String
  sizeBytes : Int
  startedAt : Int
  completedAt : Option Int
  status : String
  errorMessage : Option String
  triggeredBy : String
  deriving Repr, DecidableEq

/-- The durable store: the `backups` table as a list of rows. -/
abbrev Store := List Backup

/-- `BackupRepository.Create`: INSERT of the seven columns
(id, database_name, file_path, size_bytes, started_at, status, triggered_by);
`completed_at` and `error_message` stay NULL. -/
def repoCreate (store : Store) (b : Backup) : Store :=
  store ++ [b]

/-- `BackupRepository.UpdateStatus` of `backup_repo.go`:
`UPDATE backups SET status = ?, size_bytes = ?, completed_at = ?,
error_message = ? WHERE id = ?`.  `completed_at` is set to now;
`error_message` becomes NULL when the message is empty
(`sql.NullString{String: errorMsg, Valid: errorMsg != ""}`).
Note: the statement does not touch `file_path`, and the method takes no
file-path argument. -/
def repoUpdateStatus (store : Store) (id status : String) (sizeBytes : Int)
    (errorMsg : String) (now : Int) : Store :=
  store.map fun b =>
    if b.id = id then
      { b with
        status := status
        sizeBytes := sizeBytes
        completedAt := some now
        errorMessage := if errorMsg = "" then none else some errorMsg }
    else b

/-- Modelled from the spec: the durable-store contract of spec section 6,
`updateStatus(id, status, path, size, error)`, which is also the
`UpdateStatus` signature demanded by the `backupRepository` interface in
`service.go` (it has a `filePath string` parameter).  Identical to
`repoUpdateStatus` except that it persists the file path as well. -/
def specUpdateStatus (store : Store) (id status filePath : String)
    (sizeBytes : Int) (errorMsg : String) (now : Int) : Store :=
  store.map fun b =>
    if b.id = id then
      { b with
        status := status
        filePath := filePath
        sizeBytes := sizeBytes
        completedAt := some now
        errorMessage := if errorMsg = "" then none else some errorMsg }
    else b

/-- `BackupRepository.GetByID`: SELECT ... WHERE id = ?; `sql.ErrNoRows`
becomes `(nil, nil)`, embedded as `none`. -/
def repoGetByID (store : Store) (id : String) : Option Backup :=
  store.find? fun b => b.id = id

/-- `BackupRepository.ListRecent`: SELECT ... ORDER BY started_at DESC
LIMIT ?. -/
def repoListRecent (store : Store) (limit : Nat) : List Backup :=
  (store.insertionSort fun a b => b.startedAt ≤ a.startedAt).take limit

/-- `BackupRepository.Delete`: DELETE FROM backups WHERE id = ?. -/
def repoDelete (store : Store) (id : String) : Store :=
  store.filter fun b => b.id ≠ id

/-- The executor result `BackupResult{FilePath, SizeBytes, ...}` of
`executor.go` (the duration is irrelevant to the store). -/
structure BackupResult where
  filePath : String
  sizeBytes : Int
  deriving Repr, DecidableEq

/-- `Service.createBackup` of `service.go` (the body of `TriggerBackup` and
of the scheduled `runBackup`).  External outcomes are explicit parameters:
`freshId` is the generated UUID, `now` the creation timestamp, `createErr`
the SQLite driver outcome of `repo.Create`, `execResult` the outcome of
`executor.Execute`, and `updErr` the driver outcome of the one
`repo.UpdateStatus` call that the taken path issues (a failed driver write
does not change the store).  Returns the final store and, as in Go, either
the in-memory record or the wrapped error.  Mirrored branches:
1. `repo.Create` fails → `(nil, "create backup record: " ++ e)`.
2. executor fails → `UpdateStatus(id,"failed","",0,err)` with its error
   ignored, then `(nil, "execute backup: " ++ e)`.
3. `UpdateStatus(id,"completed",...)` fails →
   `(nil, "update backup status: " ++ e)`.
4. otherwise the record, with path/size/status set on the in-memory copy,
   is returned.
The store writes go through the concrete `repoUpdateStatus`, which does not
persist the file path. -/
def createBackup (store : Store) (dbName triggeredBy freshId : String)
    (now : Int) (createErr : Option String)
    (execResult : Except String BackupResult) (updErr : Option String) :
    Store × Except String Backup :=
  let b : Backup :=
    { id := freshId
      databaseName := dbName
      filePath := ""
      sizeBytes := 0
      startedAt := now
      completedAt := none
      status := "running"
      errorMessage := none
      triggeredBy := triggeredBy }
  match createErr with
  | some e => (store, .error ("create backup record: " ++ e))
  | none =>
    let store1 := repoCreate store b
    match execResult with
    | .error e =>
      let store2 :=
        if updErr = none then repoUpdateStatus store1 freshId "failed" 0 e now
        else store1
      (store2, .error ("execute backup: " ++ e))
    | .ok res =>
      match updErr with
      | some e => (store1, .error ("update backup status: " ++ e))
      | none =>
        let store2 := repoUpdateStatus store1 freshId "completed" res.sizeBytes "" now
        (store2, .ok { b with
            filePath := res.filePath
            sizeBytes := res.sizeBytes
            status := "completed" })

/-- `Service.GetBackup`: a pure passthrough to `repo.GetByID`; an unknown
id yields `(nil, nil)` — `.ok none`, not an error. -/
def getBackup (store : Store) (id : String) : Except String (Option Backup) :=
  .ok (repoGetByID store id)

/-- `Service.RestoreBackup`: looks up the record, maps an absent record to
the error `"backup not found"`, otherwise invokes the executor's restore
(outcome passed in as `restoreErr`). -/
def restoreBackup (store : Store) (id : String) (restoreErr : Option String) :
    Except String Unit :=
  match repoGetByID store id with
  | none => .error "backup not found"
  | some _ =>
    match restoreErr with
    | some e => .error ("restore backup: " ++ e)
    | none => .ok ()

/-- `Service.DeleteBackup`: looks up the record (absent → error
`"backup not found"`), best-effort deletes the artifact file (`fileDelErr`
is only logged), then deletes the record; a record-delete driver failure
(`recDelErr`) is fatal and leaves the store unchanged. -/
def deleteBackup (store : Store) (id : String) (fileDelErr : Option String)
    (recDelErr : Option String) : Store × Except String Unit :=
  match repoGetByID store id with
  | none => (store, .error "backup not found")
  | some _ =>
    match recDelErr with
    | some e => (store, .error ("delete backup record: " ++ e))
    | none => (repoDelete store id, .ok ())

/-- `Service.cleanupOldBackups`: lists the 1000 most recent records,
computes `cutoff = now - retentionDays` (in days), and deletes every listed
record with `startedAt < cutoff` (file deletion and record deletion are
log-and-continue; the store delete is by id). -/
def cleanupOldBackups (store : Store) (now retentionDays : Int) : Store :=
  let cutoff := now - retentionDays
  let olds := (repoListRecent store 1000).filter fun b => b.startedAt < cutoff
  olds.foldl (fun st b => repoDelete st b.id) store

/-- One entry of the external cron runner: the `cron.EntryID` handed back
by `AddFunc`, the schedule expression it was registered with, and the
database name captured by the job closure in `Scheduler.AddJob`. -/
structure CronEntry where
  entryId : Nat
  cronExpr : String
  dbName : String
  deriving Repr, DecidableEq

/-- The `Scheduler` of `scheduler.go`: the cron runner's entry list
(`s.cron`), the name → `EntryID` registry (`s.jobs`), and the counter the
cron library draws fresh entry ids from. -/
structure SchedulerState where
  entries : List CronEntry
  jobs : List (String × Nat)
  nextId : Nat
  deriving Repr, DecidableEq

/-- `NewScheduler`: empty cron runner and empty job registry. -/
def newScheduler : SchedulerState :=
  { entries := [], jobs := [], nextId := 0 }

/-- Lookup `s.jobs[id]`. -/
def lookupJob (jobs : List (String × Nat)) (name : String) : Option Nat :=
  (jobs.find? fun p => p.1 = name).map fun p => p.2

/-- `Scheduler.AddJob(id, cronExpr, dbName)`.  `parses` is the external
cron-expression parser (`cron.AddFunc`'s parse step).  Mirrored exactly:
1. if `id` is already registered, `s.cron.Remove(existingID)` — the old
   entry leaves the cron runner *before* the new expression is parsed;
2. `AddFunc` parses; on failure the error is returned and `s.jobs` is not
   touched (the stale name → old-entry-id mapping stays);
3. on success the new entry is added and `s.jobs[id] = entryID`.
Returns the new state and `true` on success, `false` for the
invalid-schedule error. -/
def addJob (parses : String → Bool) (st : SchedulerState)
    (name cronExpr dbName : String) : SchedulerState × Bool :=
  let entries1 :=
    match lookupJob st.jobs name with
    | some eid => st.entries.filter fun e => e.entryId ≠ eid
    | none => st.entries
  if parses cronExpr then
    ({ entries := entries1 ++ [⟨st.nextId, cronExpr, dbName⟩]
       jobs := (st.jobs.filter fun p => p.1 ≠ name) ++ [(name, st.nextId)]
       nextId := st.nextId + 1 }, true)
  else
    ({ st with entries := entries1 }, false)

/-- The triggers that actually fire for a given cron expression: the cron
runner fires every entry it holds, independent of the `jobs` registry. -/
def entriesWithExpr (st : SchedulerState) (expr : String) : List CronEntry :=
  st.entries.filter fun e => e.cronExpr = expr

/-- A job invocation outcome as seen by the closure registered in
`Scheduler.AddJob`: the outer `Except` layer is a Go panic unwinding
through the call, the inner `Option String` is the ordinary error value
returned by `s.runBackup`. -/
abbrev JobOutcome := Except String (Option String)

/-- The closure `Scheduler.AddJob` registers with `cron.AddFunc`
(lines 225-235 of `scheduler.go`): it logs, calls `s.runBackup`, logs the
returned error or the success, and returns.  It contains no
`defer`/`recover`, and the cron runner is built by `NewScheduler` as
`cron.New(cron.WithSeconds())` — without `cron.WithChain(cron.Recover(...))`,
so the library's default (empty) wrapper chain adds no recovery either.  A
panic raised by `s.runBackup` therefore unwinds out of the fired job. -/
def cronJobFire (callbackResult : JobOutcome) : Except String Unit :=
  match callbackResult with
  | .error p => .error p
  | .ok (some _) => .ok ()
  | .ok none => .ok ()

/-- Modelled from the spec: the stop semantics of the scheduler live in the
external cron library (`robfig/cron`'s run loop, `jobWaiter` wait group and
the context returned by `cron.Stop`), which is not part of this
repository; `Scheduler.Stop` in `scheduler.go` only delegates to it.
Spec section 4.2: `Stop()` requests that no further triggers fire and
returns a handle that completes only once all currently-running
invocations finish.  The state counts in-flight invocations and remembers
whether stop was requested. -/
structure SchedRun where
  stopped : Bool
  running : Nat
  deriving Repr, DecidableEq

/-- Modelled from the spec: the events of the scheduler's run loop — a
trigger firing (which starts an invocation unless stop was requested), an
in-flight invocation finishing, and the stop request. -/
inductive SchedEvent where
  | fire
  | finish
  | stop
  deriving Repr, DecidableEq

/-- Modelled from the spec: one transition of the scheduler's run loop. -/
def schedStep (s : SchedRun) (e : SchedEvent) : SchedRun :=
  match e with
  | .fire => if s.stopped then s else { s with running := s.running + 1 }
  | .finish => { s with running := s.running - 1 }
  | .stop => { s with stopped := true }

/-- Modelled from the spec: the completion handle returned by `Stop()` —
done exactly when stop has been requested and no invocation is in
flight. -/
def stopHandleDone (s : SchedRun) : Bool :=
  s.stopped && s.running == 0

/-- A websocket `Client` of `hub.go` as the hub sees it: its diagnostic id
and its bounded `send` channel, embedded as the queued messages plus the
channel capacity (256 in `handler.go`). -/
structure Viewer where
  clientId : String
  send : List String
  cap : Nat
  deriving Repr, DecidableEq

/-- The hub state relevant to one broadcast dispatch: the active client
set, plus the ids whose `send` channel has been closed. -/
structure HubState where
  clients : List Viewer
  closed : List String
  deriving Repr, DecidableEq

/-- Whether the non-blocking `select { case client.send <- message;
default }` succeeds: the bounded channel has room. -/
def hasRoom (c : Viewer) : Prop :=
  c.send.length < c.cap

instance (c : Viewer) : Decidable (hasRoom c) := by
  unfold hasRoom; infer_instance

/-- The `case message := <-h.broadcast` arm of `Hub.Run`: for every client
in the set, a non-blocking enqueue of the one serialized message; a client
whose channel is full is deleted from the set and its channel is
closed. -/
def broadcastStep (h : HubState) (msg : String) : HubState :=
  { clients := h.clients.filterMap fun c =>
      if hasRoom c then some { c with send := c.send ++ [msg] } else none
    closed := h.closed ++
      (h.clients.filter fun c => ¬ hasRoom c).map fun c => c.clientId }

/-- `Hub.ClientCount`: the size of the active client set. -/
def clientCount (h : HubState) : Nat :=
  h.clients.length

/-- One tick of `MetricsBroadcaster.run`: if `hub.ClientCount() == 0` the
tick does nothing — in particular `b.metricsGetter` is not called;
otherwise the getter is called once and its payload, unless it errored, is
broadcast.  Returns the number of getter calls made in this tick and the
payload submitted to the hub's broadcast queue, if any. -/
def metricsTick (h : HubState) (getterResult : Except String String) :
    Nat × Option String :=
  if clientCount h == 0 then (0, none)
  else
    match getterResult with
    | .error _ => (1, none)
    | .ok v => (1, some v)

/-- A concrete store row used to analyse the retention sweep: record `i`
has a distinct id (a string of `i` copies of `a`) and started `10 + i`
days in the past relative to time `0`. -/
def cexRec (i : Nat) : Backup :=
  { id := String.mk (List.replicate i 'a')
    databaseName := "orders"
    filePath := ""
    sizeBytes := 0
    startedAt := -(10 + (i : Int))
    completedAt := none
    status := "completed"
    errorMessage := none
    triggeredBy := "manual" }

/-- A store of 1001 distinct records, all older than a 7-day window. -/
def cexStore : Store := (List.range 1001).map cexRec

/-! ### Helper lemmas about the repository embedding -/

/-- A record is found after `Create`+`UpdateStatus` when its id was fresh:
the update rewrites exactly the appended row. -/
theorem getByID_update_create (store : Store) (b : Backup) (st : String)
    (sz : Int) (em : String) (now : Int)
    (hfresh : repoGetByID store b.id = none) :
    repoGetByID (repoUpdateStatus (repoCreate store b) b.id st sz em now) b.id =
      some { b with
        status := st
        sizeBytes := sz
        completedAt := some now
        errorMessage := if em = "" then none else some em } := by
  induction store with
  | nil =>
    simp [repoGetByID, repoCreate, repoUpdateStatus, List.find?]
  | cons c rest ih =>
    simp only [repoGetByID, List.find?_cons] at hfresh ⊢
    by_cases hc : c.id = b.id
    · simp [hc] at hfresh
    · simp only [repoCreate, repoUpdateStatus, List.map, List.cons_append] at ih ⊢
      simp only [if_neg hc]
      rw [List.find?_cons]
      simp only [hc, decide_eq_true_eq, if_false, decide_False] at hfresh ⊢
      exact ih hfresh

/-- A fresh id stays absent after `Create` of a different record's fields:
not needed for an id equal to the created one. -/
theorem getByID_create_of_ne (store : Store) (b : Backup) (id : String)
    (h : repoGetByID store id = none) (hne : b.id ≠ id) :
    repoGetByID (repoCreate store b) id = none := by
  simp only [repoGetByID, repoCreate] at h ⊢
  rw [List.find?_append, h]
  simp [List.find?, hne]

/-! ### C1 -/

/-- C1: every `TriggerBackup` call whose store writes are accepted by the
driver (`createErr = none`, `updErr = none`) leaves the record it created
in a terminal state once it returns: the persisted status is exactly
`completed` (executor success) or `failed` (executor failure), and is
never `running`.  The record is created with status `running` and the one
status update issued after the executor returns rewrites it on both
paths. -/
theorem triggerBackup_terminal_status (store : Store)
    (dbName triggeredBy freshId : String) (now : Int)
    (execResult : Except String BackupResult)
    (hfresh : repoGetByID store freshId = none) :
    ∃ r, repoGetByID
        (createBackup store dbName triggeredBy freshId now none execResult none).1
        freshId = some r ∧
      (r.status = "completed" ∨ r.status = "failed") ∧ r.status ≠ "running" := by
  cases execResult with
  | error e =>
    refine ⟨{ id := freshId, databaseName := dbName, filePath := ""
              sizeBytes := 0, startedAt := now, completedAt := some now
              status := "failed"
              errorMessage := if e = "" then none else some e
              triggeredBy := triggeredBy }, ?_, Or.inr rfl, by simp⟩
    have h := getByID_update_create store
      ⟨freshId, dbName, "", 0, now, none, "running", none, triggeredBy⟩
      "failed" 0 e now hfresh
    simpa [createBackup] using h
  | ok res =>
    refine ⟨{ id := freshId, databaseName := dbName, filePath := ""
              sizeBytes := res.sizeBytes, startedAt := now
              completedAt := some now, status := "completed"
              errorMessage := none
              triggeredBy := triggeredBy }, ?_, Or.inl rfl, by simp⟩
    have h := getByID_update_create store
      ⟨freshId, dbName, "", 0, now, none, "running", none, triggeredBy⟩
      "completed" res.sizeBytes "" now hfresh
    simpa [createBackup] using h

/-- Witness for C1 at a concrete call: empty store, successful executor. -/
theorem triggerBackup_terminal_status_witness :
    repoGetByID ([] : Store) "id1" = none ∧
    ∃ r, repoGetByID
        (createBackup [] "orders" "manual" "id1" 0 none
          (.ok ⟨"/backups/orders.gz", 4096⟩) none).1 "id1" = some r ∧
      (r.status = "completed" ∨ r.status = "failed") ∧ r.status ≠ "running" :=
  ⟨rfl, triggerBackup_terminal_status [] "orders" "manual" "id1" 0
    (.ok ⟨"/backups/orders.gz", 4096⟩) rfl⟩

/-! ### C2 -/

/-- C2: the round-trip through the durable store loses the file path.  The
concrete `BackupRepository.UpdateStatus` takes no file-path argument and
its UPDATE statement does not set `file_path` (even though the
`backupRepository` interface in `service.go` declares a `filePath`
parameter), so after a completed backup the stored path is still the empty
string written at creation; status, size and error do round-trip.  The
spec-shaped `specUpdateStatus` persists the path, exhibiting the intended
behaviour. -/
theorem updateStatus_roundTrip_loses_filePath :
    (repoGetByID
        (repoUpdateStatus
          (repoCreate []
            ⟨"b1", "orders", "", 0, 0, none, "running", none, "manual"⟩)
          "b1" "completed" 4096 "" 5) "b1").map
        (fun r => (r.status, r.sizeBytes, r.errorMessage)) =
      some ("completed", 4096, none) ∧
    (repoGetByID
        (repoUpdateStatus
          (repoCreate []
            ⟨"b1", "orders", "", 0, 0, none, "running", none, "manual"⟩)
          "b1" "completed" 4096 "" 5) "b1").map (fun r => r.filePath) =
      some "" ∧
    (repoGetByID
        (repoUpdateStatus
          (repoCreate []
            ⟨"b1", "orders", "", 0, 0, none, "running", none, "manual"⟩)
          "b1" "completed" 4096 "" 5) "b1").map (fun r => r.filePath) ≠
      some "/backups/orders.gz" ∧
    (repoGetByID
        (specUpdateStatus
          (repoCreate []
            ⟨"b1", "orders", "", 0, 0, none, "running", none, "manual"⟩)
          "b1" "completed" "/backups/orders.gz" 4096 "" 5) "b1").map
        (fun r => r.filePath) =
      some "/backups/orders.gz" := by
  refine ⟨rfl, rfl, ?_, rfl⟩
  decide

/-! ### C4 -/

/-- C4 counterexample: when the executor fails, `TriggerBackup` returns an
error and no record — even though the failed record was persisted to the
store — contradicting the claim that the caller still receives the failed
record. -/
theorem triggerBackup_executorFailure_counterexample :
    (createBackup [] "orders" "manual" "id1" 0 none
        (.error "mongodump failed") none).2 =
      .error "execute backup: mongodump failed" ∧
    ((createBackup [] "orders" "manual" "id1" 0 none
        (.error "mongodump failed") none).1.map fun b => (b.id, b.status)) =
      [("id1", "failed")] := by
  refine ⟨rfl, ?_⟩
  decide

/-- C4 amended: `TriggerBackup` returns the completed record exactly when
record creation, the executor and the final status write all succeed; it
returns an error with no record when record creation fails, when the
executor fails (the failure is persisted on the record, which is not
returned to the caller), or when the completed-status write fails. -/
theorem createBackup_error_characterization (store : Store)
    (dbName triggeredBy freshId : String) (now : Int)
    (createErr : Option String) (execResult : Except String BackupResult)
    (updErr : Option String) :
    ((∃ b, (createBackup store dbName triggeredBy freshId now createErr
        execResult updErr).2 = Except.ok b) ↔
      createErr = none ∧ (∃ r, execResult = Except.ok r) ∧ updErr = none) ∧
    (∀ b, (createBackup store dbName triggeredBy freshId now createErr
        execResult updErr).2 = Except.ok b → b.status = "completed") ∧
    (∀ e, createErr = none → execResult = Except.error e → updErr = none →
      repoGetByID store freshId = none →
      ∃ r, repoGetByID (createBackup store dbName triggeredBy freshId now
          createErr execResult updErr).1 freshId = some r ∧
        r.status = "failed") := by
  refine ⟨?_, ?_, ?_⟩
  · cases createErr with
    | some e => simp [createBackup]
    | none =>
      cases execResult with
      | error e => simp [createBackup]
      | ok res =>
        cases updErr with
        | some e => simp [createBackup]
        | none => simp [createBackup]
  · intro b hb
    cases createErr with
    | some e => simp [createBackup] at hb
    | none =>
      cases execResult with
      | error e => simp [createBackup] at hb
      | ok res =>
        cases updErr with
        | some e => simp [createBackup] at hb
        | none =>
          simp [createBackup] at hb
          simp [← hb]
  · intro e hc he hu hfresh
    subst hc; subst he; subst hu
    refine ⟨{ id := freshId, databaseName := dbName, filePath := ""
              sizeBytes := 0, startedAt := now, completedAt := some now
              status := "failed"
              errorMessage := if e = "" then none else some e
              triggeredBy := triggeredBy }, ?_, rfl⟩
    have h := getByID_update_create store
      ⟨freshId, dbName, "", 0, now, none, "running", none, triggeredBy⟩
      "failed" 0 e now hfresh
    simpa [createBackup] using h

/-- Witness for C4's amended theorem at a concrete call: an executor
failure on an empty store. -/
theorem createBackup_error_characterization_witness :
    ((∃ b, (createBackup [] "orders" "manual" "id1" 0 none
        (.error "boom") none).2 = Except.ok b) ↔
      (none : Option String) = none ∧
      (∃ r, (Except.error "boom" : Except String BackupResult) = Except.ok r) ∧
      (none : Option String) = none) ∧
    (∀ b, (createBackup [] "orders" "manual" "id1" 0 none
        (.error "boom") none).2 = Except.ok b → b.status = "completed") ∧
    (∀ e, (none : Option String) = none →
      (Except.error "boom" : Except String BackupResult) = Except.error e →
      (none : Option String) = none →
      repoGetByID [] "id1" = none →
      ∃ r, repoGetByID (createBackup [] "orders" "manual" "id1" 0 none
          (.error "boom") none).1 "id1" = some r ∧ r.status = "failed") :=
  createBackup_error_characterization [] "orders" "manual" "id1" 0 none
    (.error "boom") none

/-! ### C6 -/

/-- C6: a panic raised by a job's invocation callback is *not* caught by
the scheduler — the closure registered in `Scheduler.AddJob` has no
`defer`/`recover` and `NewScheduler` builds the cron runner without a
`Recover` chain wrapper, so the panic unwinds out of the fired job (in Go,
terminating the process).  Only ordinary error values are caught and
logged.  At the failing input (a panicking callback) the fired job
propagates the panic instead of completing. -/
theorem cronJobFire_panic_escapes :
    cronJobFire (.error "runtime error: invalid memory address") =
      .error "runtime error: invalid memory address" ∧
    cronJobFire (.ok (some "backup failed")) = .ok () ∧
    cronJobFire (.ok none) = .ok () :=
  ⟨rfl, rfl, rfl⟩

/-! ### C8 -/

/-- C8 (spec-modelled): the completion handle returned by `Stop()` is not
done while any invocation is still running, and once stop has been
requested a firing trigger starts no new invocation (the run state is
unchanged). -/
theorem schedulerStop_quiescence (s : SchedRun) :
    (0 < s.running → stopHandleDone s = false) ∧
    (s.stopped = true → schedStep s .fire = s) := by
  constructor
  · intro h
    simp only [stopHandleDone, Bool.and_eq_false_iff]
    right
    simpa using Nat.pos_iff_ne_zero.mp h
  · intro h
    simp [schedStep, h]

/-- Witness for C8 at a concrete run state: stopped with one in-flight
invocation. -/
theorem schedulerStop_quiescence_witness :
    (0 < (1 : Nat) → stopHandleDone ⟨true, 1⟩ = false) ∧
    ((true : Bool) = true → schedStep ⟨true, 1⟩ .fire = ⟨true, 1⟩) :=
  schedulerStop_quiescence ⟨true, 1⟩

/-! ### C9 -/

/-- C9: in a tick where the hub's live viewer count is zero, the periodic
producer makes zero calls to the metrics getter and broadcasts nothing. -/
theorem metricsTick_skips_when_no_viewers (h : HubState)
    (getterResult : Except String String) (hz : h.clients = []) :
    metricsTick h getterResult = (0, none) := by
  simp [metricsTick, clientCount, hz]

/-- Witness for C9 at a concrete empty hub. -/
theorem metricsTick_skips_when_no_viewers_witness :
    metricsTick ⟨[], []⟩ (.ok "snapshot") = (0, none) :=
  metricsTick_skips_when_no_viewers ⟨[], []⟩ (.ok "snapshot") rfl

/-! ### C10 -/

/-- C10: the three lookup-based operations disagree on how an absent id is
signalled: `GetBackup` returns `.ok none` (no error at all), while
`RestoreBackup` and `DeleteBackup` both turn the absent record into the
error `"backup not found"`. -/
theorem absence_signalling_disagreement (store : Store) (id : String)
    (restoreErr fileDelErr recDelErr : Option String)
    (habsent : repoGetByID store id = none) :
    getBackup store id = .ok none ∧
    (∀ e, getBackup store id ≠ .error e) ∧
    restoreBackup store id restoreErr = .error "backup not found" ∧
    (deleteBackup store id fileDelErr recDelErr).2 = .error "backup not found" := by
  refine ⟨?_, ?_, ?_, ?_⟩
  · simp [getBackup, habsent]
  · intro e
    simp [getBackup]
  · simp [restoreBackup, habsent]
  · simp [deleteBackup, habsent]

/-- Witness for C10 at a concrete unknown id on the empty store. -/
theorem absence_signalling_disagreement_witness :
    getBackup [] "nope" = .ok none ∧
    (∀ e, getBackup [] "nope" ≠ .error e) ∧
    restoreBackup [] "nope" none = .error "backup not found" ∧
    (deleteBackup [] "nope" none none).2 = .error "backup not found" :=
  absence_signalling_disagreement [] "nope" none none none rfl

/-! ### C5 -/

/-- C5 counterexample: `AddJob` deregisters the prior trigger *before*
parsing the new expression, so a failed `AddJob` does not leave the prior
registration in effect.  Concretely: after a successful `AddJob("x", good)`
the cron runner holds one entry; a second `AddJob("x", "bad")` fails with
the invalid-schedule error, yet afterwards the cron runner holds no entry
at all — the good trigger no longer fires. -/
theorem addJob_failure_drops_prior_trigger :
    ((addJob (fun e => e != "bad") newScheduler "x" "0 0 12 * * *" "orders").1.entries =
      [⟨0, "0 0 12 * * *", "orders"⟩]) ∧
    ((addJob (fun e => e != "bad")
        (addJob (fun e => e != "bad") newScheduler "x" "0 0 12 * * *" "orders").1
        "x" "bad" "orders").2 = false) ∧
    ((addJob (fun e => e != "bad")
        (addJob (fun e => e != "bad") newScheduler "x" "0 0 12 * * *" "orders").1
        "x" "bad" "orders").1.entries = []) := by
  refine ⟨rfl, rfl, ?_⟩
  decide

/-- C5 amended: registering over an existing name with a parseable
expression atomically replaces the trigger — afterwards only the second
expression's entry exists, no duplicate for the name coexists — and
`AddJob` fails exactly when the expression cannot be parsed; however a
*failed* `AddJob` does not leave the prior registration in effect: the
prior trigger is deregistered before parsing, so the cron runner is left
with no entry for that name while the registry still maps the name to the
removed entry id. -/
theorem addJob_replacement (parses : String → Bool) (st : SchedulerState)
    (name e1 e2 db1 db2 : String)
    (hfresh : lookupJob st.jobs name = none)
    (hbound : ∀ en ∈ st.entries, en.entryId < st.nextId)
    (h1 : parses e1 = true) :
    ((addJob parses st name e1 db1).2 = true) ∧
    (∀ (st' : SchedulerState) (n e d : String),
      (addJob parses st' n e d).2 = parses e) ∧
    (parses e2 = true →
      (addJob parses (addJob parses st name e1 db1).1 name e2 db2).1.entries =
        st.entries ++ [⟨st.nextId + 1, e2, db2⟩] ∧
      lookupJob
        (addJob parses (addJob parses st name e1 db1).1 name e2 db2).1.jobs
        name = some (st.nextId + 1)) ∧
    (parses e2 = false →
      (addJob parses (addJob parses st name e1 db1).1 name e2 db2).1.entries =
        st.entries ∧
      lookupJob
        (addJob parses (addJob parses st name e1 db1).1 name e2 db2).1.jobs
        name = some st.nextId) := by
  have hnone : st.jobs.find? (fun p => p.1 = name) = none := by
    unfold lookupJob at hfresh
    exact Option.map_eq_none'.mp hfresh
  have hmem : ∀ p ∈ st.jobs, p.1 ≠ name := by
    intro p hp
    have := List.find?_eq_none.mp hnone p hp
    simpa using this
  have hfilter : st.jobs.filter (fun p => p.1 ≠ name) = st.jobs := by
    rw [List.filter_eq_self]
    intro a ha
    simp only [ne_eq, decide_eq_true_eq]
    exact hmem a ha
  have hefilter :
      st.entries.filter (fun en => en.entryId ≠ st.nextId) = st.entries := by
    rw [List.filter_eq_self]
    intro a ha
    have h := hbound a ha
    simp only [ne_eq, decide_eq_true_eq]
    omega
  have hlookgen : ∀ k : Nat, lookupJob (st.jobs ++ [(name, k)]) name = some k := by
    intro k
    unfold lookupJob
    rw [List.find?_append, hnone]
    simp [List.find?]
  have hst1 : addJob parses st name e1 db1 =
      ({ entries := st.entries ++ [⟨st.nextId, e1, db1⟩]
         jobs := st.jobs ++ [(name, st.nextId)]
         nextId := st.nextId + 1 }, true) := by
    simp [addJob, hfresh, h1, hfilter]
    intro a b hab
    exact hmem (a, b) hab
  have hent1 :
      ((st.entries ++ [(⟨st.nextId, e1, db1⟩ : CronEntry)]).filter
        fun en => en.entryId ≠ st.nextId) = st.entries := by
    rw [List.filter_append, hefilter]
    simp
  have hjfilter2 :
      ((st.jobs ++ [(name, st.nextId)]).filter fun p => p.1 ≠ name) =
        st.jobs := by
    rw [List.filter_append, hfilter]
    simp
  refine ⟨by rw [hst1], ?_, ?_, ?_⟩
  · intro st' n e d
    by_cases hp : parses e <;> simp [addJob, hp]
  · intro he2
    rw [hst1]
    constructor
    · simp [addJob, hlookgen st.nextId, he2, hent1]
      intro a ha
      have := hbound a ha
      omega
    · simp only [addJob, hlookgen st.nextId, he2, if_true, hjfilter2]
      exact hlookgen (st.nextId + 1)
  · intro he2
    rw [hst1]
    constructor
    · simp [addJob, hlookgen st.nextId, he2, hent1]
      intro a ha
      have := hbound a ha
      omega
    · simp only [addJob, hlookgen st.nextId, he2, if_false, Bool.false_eq_true]

/-- Witness for C5's amended theorem at a concrete registry: register
`"x"` with a parseable expression, then attempt `"bad"`. -/
theorem addJob_replacement_witness :
    ((addJob (fun e => e != "bad") newScheduler "x" "0 0 12 * * *" "orders").2 = true) ∧
    (∀ (st' : SchedulerState) (n e d : String),
      (addJob (fun e => e != "bad") st' n e d).2 = ((fun e : String => e != "bad") e)) ∧
    ((fun e : String => e != "bad") "bad" = true →
      (addJob (fun e => e != "bad")
          (addJob (fun e => e != "bad") newScheduler "x" "0 0 12 * * *" "orders").1
          "x" "bad" "orders").1.entries =
        newScheduler.entries ++ [⟨newScheduler.nextId + 1, "bad", "orders"⟩] ∧
      lookupJob (addJob (fun e => e != "bad")
          (addJob (fun e => e != "bad") newScheduler "x" "0 0 12 * * *" "orders").1
          "x" "bad" "orders").1.jobs "x" = some (newScheduler.nextId + 1)) ∧
    ((fun e : String => e != "bad") "bad" = false →
      (addJob (fun e => e != "bad")
          (addJob (fun e => e != "bad") newScheduler "x" "0 0 12 * * *" "orders").1
          "x" "bad" "orders").1.entries = newScheduler.entries ∧
      lookupJob (addJob (fun e => e != "bad")
          (addJob (fun e => e != "bad") newScheduler "x" "0 0 12 * * *" "orders").1
          "x" "bad" "orders").1.jobs "x" = some newScheduler.nextId) :=
  addJob_replacement (fun e => e != "bad") newScheduler "x" "0 0 12 * * *" "bad"
    "orders" "orders" rfl (by simp [newScheduler]) (by decide)

/-! ### C7 -/

/-- C7: one broadcast dispatch enqueues the one serialized message to
every viewer in the active set that has queue room (every survivor's queue
ends with exactly that message), and every viewer whose queue is full at
that moment is removed from the active set and its queue is closed.
Requires the hub invariant that client ids are distinct (each id is a
fresh UUID fragment generated at accept time). -/
theorem broadcast_delivery (h : HubState) (msg : String) (c : Viewer)
    (hnd : (h.clients.map fun v => v.clientId).Nodup)
    (hc : c ∈ h.clients) :
    (hasRoom c →
      { c with send := c.send ++ [msg] } ∈ (broadcastStep h msg).clients) ∧
    (¬ hasRoom c →
      (∀ v ∈ (broadcastStep h msg).clients, v.clientId ≠ c.clientId) ∧
      c.clientId ∈ (broadcastStep h msg).closed) ∧
    (∀ v ∈ (broadcastStep h msg).clients, ∃ w, w ∈ h.clients ∧
      hasRoom w ∧ v = { w with send := w.send ++ [msg] }) := by
  refine ⟨?_, ?_, ?_⟩
  · intro hroom
    simp only [broadcastStep]
    refine List.mem_filterMap.mpr ⟨c, hc, ?_⟩
    rw [if_pos hroom]
  · intro hfull
    constructor
    · intro v hv
      simp only [broadcastStep] at hv
      rcases List.mem_filterMap.mp hv with ⟨w, hw, hfw⟩
      by_cases hwr : hasRoom w
      · rw [if_pos hwr] at hfw
        intro hid
        have hveq := Option.some.inj hfw
        have hwid : w.clientId = c.clientId := by
          rw [← hid, ← hveq]
        have hwc : w = c :=
          List.inj_on_of_nodup_map hnd hw hc hwid
        rw [hwc] at hwr
        exact hfull hwr
      · rw [if_neg hwr] at hfw
        cases hfw
    · simp only [broadcastStep]
      apply List.mem_append_right
      refine List.mem_map.mpr ⟨c, List.mem_filter.mpr ⟨hc, ?_⟩, rfl⟩
      simpa using hfull
  · intro v hv
    simp only [broadcastStep] at hv
    rcases List.mem_filterMap.mp hv with ⟨w, hw, hfw⟩
    by_cases hwr : hasRoom w
    · rw [if_pos hwr] at hfw
      exact ⟨w, hw, hwr, (Option.some.inj hfw).symm⟩
    · rw [if_neg hwr] at hfw
      cases hfw

/-- Witness for C7 at a concrete hub: viewer `"a"` has room, viewer `"b"`
is full (queue of 2 with capacity 2). -/
theorem broadcast_delivery_witness :
    (hasRoom ⟨"b", ["m1", "m2"], 2⟩ →
      { clientId := "b", send := ["m1", "m2"] ++ ["x"], cap := 2 } ∈
        (broadcastStep ⟨[⟨"a", [], 2⟩, ⟨"b", ["m1", "m2"], 2⟩], []⟩ "x").clients) ∧
    (¬ hasRoom ⟨"b", ["m1", "m2"], 2⟩ →
      (∀ v ∈ (broadcastStep ⟨[⟨"a", [], 2⟩, ⟨"b", ["m1", "m2"], 2⟩], []⟩ "x").clients,
        v.clientId ≠ "b") ∧
      "b" ∈ (broadcastStep ⟨[⟨"a", [], 2⟩, ⟨"b", ["m1", "m2"], 2⟩], []⟩ "x").closed) ∧
    (∀ v ∈ (broadcastStep ⟨[⟨"a", [], 2⟩, ⟨"b", ["m1", "m2"], 2⟩], []⟩ "x").clients,
      ∃ w, w ∈ [(⟨"a", [], 2⟩ : Viewer), ⟨"b", ["m1", "m2"], 2⟩] ∧
        hasRoom w ∧ v = { w with send := w.send ++ ["x"] }) :=
  broadcast_delivery ⟨[⟨"a", [], 2⟩, ⟨"b", ["m1", "m2"], 2⟩], []⟩ "x"
    ⟨"b", ["m1", "m2"], 2⟩ (by decide) (by decide)

/-! ### C3 -/

/-- The cleanup fold only ever removes records: its result is a sublist of
the store it started from. -/
theorem foldlDelete_sublist (olds : List Backup) (store : Store) :
    (olds.foldl (fun st b => repoDelete st b.id) store).Sublist store := by
  induction olds generalizing store with
  | nil => simp
  | cons o rest ih =>
    simp only [List.foldl_cons]
    exact (ih (repoDelete store o.id)).trans (List.filter_sublist store)

/-- A record whose id is deleted by no step of the cleanup fold
survives it. -/
theorem foldlDelete_mem_of_not_deleted (olds : List Backup) (store : Store)
    (b : Backup) (hb : b ∈ store) (hids : ∀ o ∈ olds, b.id ≠ o.id) :
    b ∈ olds.foldl (fun st b => repoDelete st b.id) store := by
  induction olds generalizing store with
  | nil => simpa
  | cons o rest ih =>
    simp only [List.foldl_cons]
    apply ih
    · refine List.mem_filter.mpr ⟨hb, ?_⟩
      simpa using hids o (by simp)
    · intro o' ho'
      exact hids o' (by simp [ho'])

/-- A record whose id occurs among the deleted ids does not survive the
cleanup fold. -/
theorem foldlDelete_not_mem_of_deleted (olds : List Backup) (store : Store)
    (b : Backup) (hid : b.id ∈ olds.map fun o => o.id) :
    b ∉ olds.foldl (fun st b => repoDelete st b.id) store := by
  induction olds generalizing store with
  | nil => simp at hid
  | cons o rest ih =>
    simp only [List.map_cons, List.mem_cons] at hid
    simp only [List.foldl_cons]
    rcases hid with h | h
    · intro hmem
      have hmem' := (foldlDelete_sublist rest (repoDelete store o.id)).subset hmem
      have hkeep := (List.mem_filter.mp hmem').2
      simp [h] at hkeep
    · exact ih (repoDelete store o.id) h

/-- Deleting one id removes at most one record when the store's ids are
distinct. -/
theorem delete_length_ge (store : Store) (d : String)
    (hnd : (store.map fun b => b.id).Nodup) :
    store.length ≤ (repoDelete store d).length + 1 := by
  induction store with
  | nil => simp [repoDelete]
  | cons c rest ih =>
    simp only [List.map_cons, List.nodup_cons] at hnd
    by_cases hcd : c.id = d
    · have hrest : repoDelete rest d = rest := by
        simp only [repoDelete]
        rw [List.filter_eq_self]
        intro a ha
        simp only [ne_eq, decide_eq_true_eq]
        intro heq
        exact hnd.1 (List.mem_map.mpr ⟨a, ha, by rw [heq, hcd]⟩)
      have hstep : repoDelete (c :: rest) d = repoDelete rest d := by
        simp [repoDelete, List.filter_cons, hcd]
      rw [hstep, hrest]
      simp
    · have hlen := ih hnd.2
      have hstep : repoDelete (c :: rest) d = c :: repoDelete rest d := by
        simp [repoDelete, List.filter_cons, hcd]
      rw [hstep]
      simp only [List.length_cons]
      omega

/-- The cleanup fold deletes at most one record per processed id: the
store shrinks by at most the number of processed records. -/
theorem foldlDelete_length (olds : List Backup) (store : Store)
    (hnd : (store.map fun b => b.id).Nodup) :
    store.length ≤
      (olds.foldl (fun st b => repoDelete st b.id) store).length + olds.length := by
  induction olds generalizing store with
  | nil => simp
  | cons o rest ih =>
    simp only [List.foldl_cons, List.length_cons]
    have hnd' : ((repoDelete store o.id).map fun b => b.id).Nodup := by
      have hsub : ((repoDelete store o.id).map fun b => b.id).Sublist
          (store.map fun b => b.id) := (List.filter_sublist store).map _
      exact hsub.nodup hnd
    have h1 := delete_length_ge store o.id hnd
    have h2 := ih (repoDelete store o.id) hnd'
    omega

/-- The analysis store has pairwise distinct ids. -/
theorem cexStore_ids_nodup : (cexStore.map fun b => b.id).Nodup := by
  have hinj : Function.Injective fun i : Nat => String.mk (List.replicate i 'a') := by
    intro i j hij
    have h2 : List.replicate i 'a' = List.replicate j 'a' :=
      congrArg String.data hij
    have h3 := congrArg List.length h2
    simpa using h3
  simp only [cexStore, List.map_map]
  exact List.Nodup.map hinj (List.nodup_range 1001)

set_option maxRecDepth 4096 in
/-- C3 counterexample: the retention sweep does *not* clear every
out-of-window record regardless of store size.  `cleanupOldBackups` only
examines the 1000 most recently started records (`ListRecent` with limit
1000), so in a store of 1001 records that are all older than the 7-day
window, at least one out-of-window record survives the sweep. -/
theorem cleanup_leaves_old_record_counterexample :
    ∃ b, b ∈ cleanupOldBackups cexStore 0 7 ∧ b.startedAt < 0 - 7 := by
  have hnd := cexStore_ids_nodup
  have hlen1001 : cexStore.length = 1001 := by
    simp only [cexStore, List.length_map, List.length_range]
  have hcleanup : cleanupOldBackups cexStore 0 7 =
      ((repoListRecent cexStore 1000).filter
        fun b => b.startedAt < 0 - 7).foldl
        (fun st b => repoDelete st b.id) cexStore := rfl
  have holdslen : ((repoListRecent cexStore 1000).filter
      fun b => b.startedAt < 0 - 7).length ≤ 1000 := by
    calc ((repoListRecent cexStore 1000).filter
        fun b => b.startedAt < 0 - 7).length
        ≤ (repoListRecent cexStore 1000).length := List.length_filter_le _ _
      _ ≤ 1000 := by
        simp only [repoListRecent]
        exact List.length_take_le _ _
  have hge := foldlDelete_length
    ((repoListRecent cexStore 1000).filter fun b => b.startedAt < 0 - 7)
    cexStore hnd
  have hpos : (cleanupOldBackups cexStore 0 7) ≠ [] := by
    rw [hcleanup]
    intro hnil
    rw [hnil, hlen1001] at hge
    simp only [List.length_nil, Nat.zero_add] at hge
    omega
  obtain ⟨b, hb⟩ := List.exists_mem_of_ne_nil _ hpos
  refine ⟨b, hb, ?_⟩
  have hbstore : b ∈ cexStore := by
    rw [hcleanup] at hb
    exact (foldlDelete_sublist _ cexStore).subset hb
  have hbm : b ∈ (List.range 1001).map cexRec := by
    simpa only [cexStore] using hbstore
  rcases List.mem_map.mp hbm with ⟨i, hi, hrec⟩
  rw [← hrec]
  simp only [cexRec]
  omega

/-- C3 amended: the retention sweep examines only the 1000 most recently
started records.  Among those, every record strictly older than the
retention window is deleted; every record of the store within the window
is untouched.  Records outside the 1000 most recent are not examined and
can survive even when older than the window.  Assumes the store invariant
that record ids (UUIDs) are distinct. -/
theorem cleanup_retention_on_listed (store : Store) (now retentionDays : Int)
    (hnd : (store.map fun b => b.id).Nodup) :
    (∀ b ∈ store, now - retentionDays ≤ b.startedAt →
      b ∈ cleanupOldBackups store now retentionDays) ∧
    (∀ b ∈ repoListRecent store 1000, b.startedAt < now - retentionDays →
      b ∉ cleanupOldBackups store now retentionDays) := by
  constructor
  · intro b hb hnew
    simp only [cleanupOldBackups]
    apply foldlDelete_mem_of_not_deleted _ _ _ hb
    intro o ho
    have hofilter := List.mem_filter.mp ho
    have hos : o ∈ store := by
      have hsorted := (List.take_sublist 1000
        (store.insertionSort fun a b => b.startedAt ≤ a.startedAt)).subset
        hofilter.1
      exact (List.perm_insertionSort
        (fun a b : Backup => b.startedAt ≤ a.startedAt) store).mem_iff.mp hsorted
    have hoold : o.startedAt < now - retentionDays := by
      simpa using hofilter.2
    intro hideq
    have hbo : b = o := List.inj_on_of_nodup_map hnd hb hos hideq
    rw [hbo] at hnew
    omega
  · intro b hb hold
    simp only [cleanupOldBackups]
    apply foldlDelete_not_mem_of_deleted
    apply List.mem_map.mpr
    refine ⟨b, List.mem_filter.mpr ⟨hb, ?_⟩, rfl⟩
    simpa using hold

/-- Witness for C3's amended theorem at a concrete store: an 8-day-old
record is swept, a 2-day-old record survives, retention 7 days. -/
theorem cleanup_retention_on_listed_witness :
    (∀ b ∈ ([⟨"old", "orders", "", 0, -8, none, "completed", none, "manual"⟩,
        ⟨"new", "orders", "", 0, -2, none, "completed", none, "manual"⟩] : Store),
      (0 : Int) - 7 ≤ b.startedAt →
      b ∈ cleanupOldBackups
        [⟨"old", "orders", "", 0, -8, none, "completed", none, "manual"⟩,
         ⟨"new", "orders", "", 0, -2, none, "completed", none, "manual"⟩] 0 7) ∧
    (∀ b ∈ repoListRecent
        [⟨"old", "orders", "", 0, -8, none, "completed", none, "manual"⟩,
         ⟨"new", "orders", "", 0, -2, none, "completed", none, "manual"⟩] 1000,
      b.startedAt < (0 : Int) - 7 →
      b ∉ cleanupOldBackups
        [⟨"old", "orders", "", 0, -8, none, "completed", none, "manual"⟩,
         ⟨"new", "orders", "", 0, -2, none, "completed", none, "manual"⟩] 0 7) :=
  cleanup_retention_on_listed
    [⟨"old", "orders", "", 0, -8, none, "completed", none, "manual"⟩,
     ⟨"new", "orders", "", 0, -2, none, "completed", none, "manual"⟩] 0 7
    (by decide)

end OneIsNun
